import Mathlib

/-!
Verification of the core sampling pipeline of the EasyColorPicker
repository (`image_color_picker.py`): coordinate mapping, pixel decoding,
RGB→HSV conversion, the append-only ledger of color records, and the four
export renderers.  Python floats are modelled by exact rationals; Python's
`int()` (truncation toward zero) is `pyInt`.
-/

namespace ColorPicker

/-- Python `int()` applied to a real-valued expression: truncation toward
zero (`int(-0.5) = 0`, `int(2.7) = 2`). -/
def pyInt (q : ℚ) : ℤ :=
  if q < 0 then ⌈q⌉ else ⌊q⌋

/-- Python `x % 1.0` for the hue normalisation step of `colorsys`:
the fractional part, always in `[0, 1)`. -/
def pyMod1 (q : ℚ) : ℚ :=
  q - ⌊q⌋

/-- Lines 535–538: alpha compositing of one channel over an opaque white
background, `int(c * alpha + 255 * (1 - alpha))` with `alpha = a / 255.0`. -/
def compositeWhite (c a : ℕ) : ℤ :=
  pyInt ((c : ℚ) * ((a : ℚ) / 255) + 255 * (1 - (a : ℚ) / 255))

/-- One hex digit, uppercase, for `0 ≤ n < 16` (`'0'`–`'9'`, `'A'`–`'F'`). -/
def hexDigit (n : ℕ) : Char :=
  if n < 10 then Char.ofNat (48 + n) else Char.ofNat (55 + n)

/-- Python `format(n, '02X')` for a channel value `n < 256`: two uppercase
hex digits. -/
def format02X (n : ℕ) : String :=
  String.mk [hexDigit (n / 16 % 16), hexDigit (n % 16)]

/-- Line 568: `hex_color = f"#{r:02X}{g:02X}{b:02X}"`. -/
def hexColor (r g b : ℕ) : String :=
  "#" ++ format02X r ++ format02X g ++ format02X b

/-- `colorsys.rgb_to_hsv` on channels already normalised to `[0,1]`,
modelled over exact rationals.  Returns `(h, s, v)` with `h ∈ [0,1)`. -/
def rgb_to_hsv (r g b : ℚ) : ℚ × ℚ × ℚ :=
  let maxc := max r (max g b)
  let minc := min r (min g b)
  let v := maxc
  if minc = maxc then (0, 0, v)
  else
    let rangec := maxc - minc
    let s := rangec / maxc
    let rc := (maxc - r) / rangec
    let gc := (maxc - g) / rangec
    let bc := (maxc - b) / rangec
    let h :=
      if r = maxc then bc - gc
      else if g = maxc then 2 + rc - bc
      else 4 + gc - rc
    (pyMod1 (h / 6), s, v)

/-- Lines 572–575: `h, s, v = colorsys.rgb_to_hsv(r/255, g/255, b/255)`
then `int(h*360)`, `int(s*100)`, `int(v*100)`. -/
def hsv_deg (r g b : ℕ) : ℤ × ℤ × ℤ :=
  let hsv := rgb_to_hsv ((r : ℚ) / 255) ((g : ℚ) / 255) ((b : ℚ) / 255)
  (pyInt (hsv.1 * 360), pyInt (hsv.2.1 * 100), pyInt (hsv.2.2 * 100))

/-- One entry of `self.color_records` (the dict built at lines 593–601 and
1068–1076). -/
structure ColorRecord where
  timestamp : String
  sequence : ℕ
  x : ℤ
  y : ℤ
  r : ℕ
  g : ℕ
  b : ℕ
  h : ℤ
  s : ℤ
  v : ℤ
  hex : String
  image_file : String
  deriving Repr, DecidableEq

/-- Lines 591–604, `add_color_record`: build the record with
`sequence = len(self.color_records) + 1` and append it. -/
def add_color_record (recs : List ColorRecord) (file ts : String)
    (x y : ℤ) (r g b : ℕ) (h s v : ℤ) (hex : String) : List ColorRecord :=
  recs ++ [⟨ts, recs.length + 1, x, y, r, g, b, h, s, v, hex, file⟩]

/-- Lines 557–589, `update_color_info` restricted to its ledger effect:
derive the hex string and the HSV triple from `(r,g,b)` and append a
record via `add_color_record`. -/
def update_color_info (recs : List ColorRecord) (file ts : String)
    (x y : ℤ) (r g b : ℕ) : List ColorRecord :=
  let hex := hexColor r g b
  let hsv := hsv_deg r g b
  add_color_record recs file ts x y r g b hsv.1 hsv.2.1 hsv.2.2 hex

/-- Lines 611–620, `clear_records`: only a non-empty ledger is cleared,
and only when the user confirms the dialog. -/
def clear_records (recs : List ColorRecord) (confirm : Bool) : List ColorRecord :=
  if recs.isEmpty then recs
  else if confirm then [] else recs

/-- PIL color modes handled by the branches at lines 530–544. -/
inductive PyMode where
  | RGB
  | RGBA
  | L
  | P
  deriving Repr, DecidableEq

/-- A raw pixel value as returned by `Image.getpixel`: a channel triple,
a channel quadruple, or a single grayscale level. -/
inductive PyPixel where
  | rgb (r g b : ℕ)
  | rgba (r g b a : ℕ)
  | gray (l : ℕ)
  deriving Repr, DecidableEq

/-- The loaded raster (`self.image`): dimensions, declared color mode,
the raw accessor `getpixel`, and the accessor of `convert('RGB')` used by
the palette branch at lines 541–544. -/
structure SourceImage where
  width : ℕ
  height : ℕ
  mode : PyMode
  px : ℤ → ℤ → PyPixel
  pxRGB : ℤ → ℤ → ℕ × ℕ × ℕ

/-- Lines 527–552: read the pixel at an in-bounds coordinate and
normalise it to an 8-bit RGB triple according to the image mode.  A pixel
value that does not match the declared mode would raise at the Python
tuple unpacking; that failure is `none`. -/
def decode_pixel (img : SourceImage) (x y : ℤ) : Option (ℕ × ℕ × ℕ) :=
  match img.mode, img.px x y with
  | .RGB, .rgb r g b => some (r, g, b)
  | .RGBA, .rgba r g b a =>
      some ((compositeWhite r a).toNat, (compositeWhite g a).toNat,
            (compositeWhite b a).toNat)
  | .L, .gray l => some (l, l, l)
  | .P, _ => some (img.pxRGB x y)
  | _, _ => none

/-- Lines 503–521: map a canvas click position back to source-image pixel
coordinates.  `dispDims` is `some (dw, dh)` exactly when a reduced display
copy is active (`display_image_obj != image`); then the zoom is undone
first, the display downscale second, and the result is truncated with
`int()`.  Without a display copy only the zoom is undone. -/
def map_to_source (zoom : ℚ) (dispDims : Option (ℕ × ℕ)) (ow oh : ℕ)
    (cx cy : ℚ) : ℤ × ℤ :=
  match dispDims with
  | some (dw, dh) =>
      let dx := cx / zoom
      let dy := cy / zoom
      let sx := (ow : ℚ) / (dw : ℚ)
      let sy := (oh : ℚ) / (dh : ℚ)
      (pyInt (dx * sx), pyInt (dy * sy))
  | none => (pyInt (cx / zoom), pyInt (cy / zoom))

/-- The session state relevant to the interactive sampling path. -/
structure AppState where
  image : Option SourceImage
  displayDims : Option (ℕ × ℕ)
  zoom_factor : ℚ
  current_image_file : String
  color_records : List ColorRecord

/-- Lines 493–555, `on_canvas_click`: resolve the canvas position to a
source coordinate, bounds-check it, decode the pixel and append a color
record; out-of-bounds clicks and decode failures leave the state
untouched. -/
def on_canvas_click (st : AppState) (canvas_x canvas_y : ℚ) (ts : String) :
    AppState :=
  match st.image with
  | none => st
  | some img =>
      let pos := map_to_source st.zoom_factor st.displayDims
        img.width img.height canvas_x canvas_y
      if 0 ≤ pos.1 ∧ pos.1 < (img.width : ℤ) ∧ 0 ≤ pos.2 ∧ pos.2 < (img.height : ℤ) then
        match decode_pixel img pos.1 pos.2 with
        | some (r, g, b) =>
            { st with color_records :=
                (update_color_info st.color_records st.current_image_file ts
                  pos.1 pos.2 r g b) }
        | none => st
      else st

/-- A full-screen snapshot from `ImageGrab.grab()`: the raw pixel value is
a channel tuple of arbitrary length (lines 1003–1006 check
`len(pixel_color) >= 3` before unpacking the first three channels). -/
structure Screenshot where
  width : ℕ
  height : ℕ
  getpixel : ℤ → ℤ → List ℕ

/-- The floating-window session state used by the screen-capture loop. -/
structure FloatState where
  is_floating_mode : Bool
  color_records : List ColorRecord
  mouse_pos : Option (ℤ × ℤ)
  floating_rgb : Option (ℕ × ℕ × ℕ)

/-- The record appended by `manual_capture_color` (lines 1068–1076):
`sequence = len(self.color_records) + 1` and `image_file` is the literal
marker `"Screen Capture"`. -/
def screen_capture_record (recs : List ColorRecord) (ts : String)
    (x y : ℤ) (r g b : ℕ) : ColorRecord :=
  let hsv := hsv_deg r g b
  ⟨ts, recs.length + 1, x, y, r, g, b, hsv.1, hsv.2.1, hsv.2.2,
    hexColor r g b, "Screen Capture"⟩

/-- Lines 983–1019, one tick of `start_screen_capture`: read the global
pointer position, take a snapshot, and when the position is inside the
snapshot and the pixel has at least three channels, publish the live RGB
triple to the floating display.  The ledger is never touched. -/
def start_screen_capture (st : FloatState) (ptrX ptrY : ℤ)
    (shot : Screenshot) : FloatState :=
  if st.is_floating_mode then
    let st1 := { st with mouse_pos := some (ptrX, ptrY) }
    if 0 ≤ ptrX ∧ ptrX < (shot.width : ℤ) ∧ 0 ≤ ptrY ∧ ptrY < (shot.height : ℤ) then
      match shot.getpixel ptrX ptrY with
      | r :: g :: b :: _ => { st1 with floating_rgb := some (r, g, b) }
      | _ => st1
    else st1
  else st

/-- Lines 1040–1085, `manual_capture_color`: take one snapshot at the
current pointer position and, when it is in bounds and yields at least
three channels, append exactly one record marked `"Screen Capture"`. -/
def manual_capture_color (st : FloatState) (ptrX ptrY : ℤ)
    (shot : Screenshot) (ts : String) : FloatState :=
  if 0 ≤ ptrX ∧ ptrX < (shot.width : ℤ) ∧ 0 ≤ ptrY ∧ ptrY < (shot.height : ℤ) then
    match shot.getpixel ptrX ptrY with
    | r :: g :: b :: _ =>
        { st with color_records :=
            st.color_records ++
              [screen_capture_record st.color_records ts ptrX ptrY r g b] }
    | _ => st
  else st

/-- Lines 753–766, `export_to_json`: the export document embeds the
ledger's record list unchanged under `color_records`, next to header
metadata. -/
structure JsonExport where
  export_timestamp : String
  total_records : ℕ
  tool_version : String
  format_tag : String
  color_records : List ColorRecord
  deriving Repr, DecidableEq

def export_to_json (recs : List ColorRecord) (now : String) : JsonExport :=
  ⟨now, recs.length, "1.0", "JSON", recs⟩

/-- Line 774–778: the CSV header row. -/
def csv_headers : List String :=
  ["序号", "时间戳", "图像文件", "X坐标", "Y坐标",
   "R值", "G值", "B值", "十六进制",
   "H值(度)", "S值(%)", "V值(%)"]

/-- Lines 782–797: one CSV data row, in the column order of the source. -/
def csv_row (rec : ColorRecord) : List String :=
  [toString rec.sequence, rec.timestamp, rec.image_file,
   toString rec.x, toString rec.y,
   toString rec.r, toString rec.g, toString rec.b, rec.hex,
   toString rec.h, toString rec.s, toString rec.v]

/-- Lines 768–797, `export_to_csv`: header row followed by one row per
record. -/
def export_to_csv (recs : List ColorRecord) : List (List String) :=
  csv_headers :: recs.map csv_row

/-- One `ColorRecord` XML element (lines 814–833): the `sequence`
attribute and the text of the nested child elements. -/
structure XmlColorRecord where
  sequenceAttr : String
  timestampText : String
  imageFileText : String
  posX : String
  posY : String
  rText : String
  gText : String
  bText : String
  hexText : String
  hText : String
  sText : String
  vText : String
  deriving Repr, DecidableEq

def xml_record (rec : ColorRecord) : XmlColorRecord :=
  ⟨toString rec.sequence, rec.timestamp, rec.image_file,
   toString rec.x, toString rec.y,
   toString rec.r, toString rec.g, toString rec.b, rec.hex,
   toString rec.h, toString rec.s, toString rec.v⟩

/-- Lines 799–838, `export_to_xml`, restricted to the `Records` element:
one `ColorRecord` element per ledger record. -/
def export_to_xml (recs : List ColorRecord) : List XmlColorRecord :=
  recs.map xml_record

/-- The twelve values carried by one XML record element, read back in the
common order sequence, timestamp, file, x, y, r, g, b, hex, h, s, v. -/
def xml_values (e : XmlColorRecord) : List String :=
  [e.sequenceAttr, e.timestampText, e.imageFileText, e.posX, e.posY,
   e.rText, e.gText, e.bText, e.hexText, e.hText, e.sText, e.vText]

/-- Lines 850–857: one text block, where `n` is the 1-based position from
`enumerate(self.color_records, 1)` (not the record's own `sequence`
field). -/
def txt_block (n : ℕ) (rec : ColorRecord) : List String :=
  ["记录 #" ++ toString n,
   "时间: " ++ rec.timestamp,
   "图像文件: " ++ rec.image_file,
   "位置: (" ++ toString rec.x ++ ", " ++ toString rec.y ++ ")",
   "RGB: (" ++ toString rec.r ++ ", " ++ toString rec.g ++ ", " ++ toString rec.b ++ ")",
   "HSV: (" ++ toString rec.h ++ "°, " ++ toString rec.s ++ "%, " ++ toString rec.v ++ "%)",
   "十六进制: " ++ rec.hex]

/-- The per-record blocks of `export_to_txt`, numbering records from `n`
upward as `enumerate` does. -/
def txt_blocks (n : ℕ) : List ColorRecord → List (List String)
  | [] => []
  | rec :: rest => txt_block n rec :: txt_blocks (n + 1) rest

/-- Lines 840–857, `export_to_txt`, restricted to its per-record blocks:
`enumerate(self.color_records, 1)`. -/
def export_to_txt (recs : List ColorRecord) : List (List String) :=
  txt_blocks 1 recs

/-- The ledger states reachable in the application: the empty ledger, an
image-click append, a manual screen capture append, and a clear. -/
inductive ReachableLedger : List ColorRecord → Prop where
  | empty : ReachableLedger []
  | click (recs : List ColorRecord) (file ts : String) (x y : ℤ) (r g b : ℕ) :
      ReachableLedger recs →
      ReachableLedger (update_color_info recs file ts x y r g b)
  | capture (recs : List ColorRecord) (ts : String) (x y : ℤ) (r g b : ℕ) :
      ReachableLedger recs →
      ReachableLedger (recs ++ [screen_capture_record recs ts x y r g b])
  | cleared (recs : List ColorRecord) (confirm : Bool) :
      ReachableLedger recs →
      ReachableLedger (clear_records recs confirm)

/-- The ledger ordering invariant: the record at 0-based position `i`
carries `sequence = i + 1`. -/
def seq_invariant (recs : List ColorRecord) : Prop :=
  ∀ i : Fin recs.length, (recs.get i).sequence = (i : ℕ) + 1

/-- Modelled from the spec (§4.2): the compositing formula the spec
states for one channel, `out = round(channel * a/255 + 255 * (1 - a/255))`,
with `round` in place of the code's truncation.  Kept separate from
`compositeWhite` for comparison. -/
def specRoundComposite (c a : ℕ) : ℤ :=
  round ((c : ℚ) * ((a : ℚ) / 255) + 255 * (1 - (a : ℚ) / 255))

/-- Modelled from the spec (claim wording for the hex field): the bare
six-digit concatenation `format(r,'02X') + format(g,'02X') + format(b,'02X')`
without a leading `#`. -/
def specBareHex (r g b : ℕ) : String :=
  format02X r ++ format02X g ++ format02X b

/-- Test fixture: a `100 × 100` truecolor image with a constant pixel. -/
def testImage : SourceImage :=
  ⟨100, 100, .RGB, fun _ _ => .rgb 10 20 30, fun _ _ => (10, 20, 30)⟩

/-- Test fixture: session showing `testImage` at `zoomFactor = 1` with no
display downscale and an empty ledger. -/
def testState : AppState :=
  ⟨some testImage, none, 1, "test.png", []⟩

/-- Test fixture: a `1920 × 1080` screen snapshot with a constant pixel. -/
def testShot : Screenshot :=
  ⟨1920, 1080, fun _ _ => [10, 20, 30]⟩

/-- Test fixture: a running floating-window session with an empty ledger. -/
def testFloat : FloatState :=
  ⟨true, [], none, none⟩

/- ### Helper lemmas -/

theorem pyInt_intCast (n : ℤ) : pyInt (n : ℚ) = n := by
  unfold pyInt
  split
  · exact Int.ceil_intCast n
  · exact Int.floor_intCast n

theorem pyInt_of_nonneg {q : ℚ} (h : 0 ≤ q) : pyInt q = ⌊q⌋ := by
  unfold pyInt
  rw [if_neg (not_lt.mpr h)]

theorem pyInt_natCast_div (m d : ℕ) :
    pyInt ((m : ℚ) / (d : ℚ)) = ((m / d : ℕ) : ℤ) := by
  rw [pyInt_of_nonneg (by positivity), Rat.floor_natCast_div_natCast]
  exact (Int.ofNat_div m d).symm

/-- The alpha-compositing branch in closed form: exact truncated division
of natural numbers. -/
theorem compositeWhite_eq (c a : ℕ) (ha : a ≤ 255) :
    compositeWhite c a = ((c * a + 255 * (255 - a)) / 255 : ℕ) := by
  unfold compositeWhite
  have hq : (c : ℚ) * ((a : ℚ) / 255) + 255 * (1 - (a : ℚ) / 255)
      = ((c * a + 255 * (255 - a) : ℕ) : ℚ) / (((255 : ℕ) : ℚ)) := by
    push_cast [Nat.cast_sub ha]
    field_simp
    ring
  rw [hq, pyInt_natCast_div]

theorem pyInt_zero : pyInt 0 = 0 := by
  rw [pyInt_of_nonneg le_rfl, Int.floor_zero]

/-- On an achromatic triple the converter takes the `minc == maxc` early
return of `colorsys.rgb_to_hsv`. -/
theorem rgb_to_hsv_achromatic (q : ℚ) : rgb_to_hsv q q q = (0, 0, q) := by
  unfold rgb_to_hsv
  simp

/-- The value channel of the converter on an achromatic gray level, in
closed form. -/
theorem hsv_deg_achromatic (k : ℕ) :
    hsv_deg k k k = (0, 0, ((k * 100 / 255 : ℕ) : ℤ)) := by
  unfold hsv_deg
  rw [rgb_to_hsv_achromatic]
  have hv : ((k : ℚ) / 255) * 100 = ((k * 100 : ℕ) : ℚ) / (((255 : ℕ) : ℚ)) := by
    push_cast
    ring
  simp only [zero_mul, pyInt_zero, hv, pyInt_natCast_div]

theorem pyInt_eq_intCast (q : ℚ) (n : ℤ) (h : q = (n : ℚ)) : pyInt q = n := by
  rw [h, pyInt_intCast]

/-- Test fixture: a `2 × 2` truecolor-plus-alpha image whose every pixel
is the semi-transparent `(100, 150, 200, 128)` of the spec's example. -/
def rgbaTestImage : SourceImage :=
  ⟨2, 2, .RGBA, fun _ _ => .rgba 100 150 200 128, fun _ _ => (0, 0, 0)⟩

/- ### Claim theorems -/

/-- C1 counterexample: the code truncates where the claim rounds.  At
channel value `1` with alpha `128` the claimed formula
`round(c*a/255 + 255*(1 - a/255))` yields `128` but the code's
`int(...)` yields `127`; and the spec's example pixel
`(100,150,200,128)` decodes to `(177,202,227)`, not `(178,203,228)`. -/
theorem composite_round_formula_refuted :
    compositeWhite 1 128 = 127 ∧ specRoundComposite 1 128 = 128 ∧
    decode_pixel rgbaTestImage 0 0 = some (177, 202, 227) ∧
    ((177, 202, 227) : ℕ × ℕ × ℕ) ≠ (178, 203, 228) := by
  have h1 : compositeWhite 1 128 = 127 := by
    rw [compositeWhite_eq 1 128 (by norm_num)]
    norm_num
  have h2 : specRoundComposite 1 128 = 128 := by
    unfold specRoundComposite
    rw [round_eq]
    have hq : ((1 : ℕ) : ℚ) * (((128 : ℕ) : ℚ) / 255) + 255 * (1 - ((128 : ℕ) : ℚ) / 255) + 1 / 2
        = ((65281 : ℕ) : ℚ) / ((510 : ℕ) : ℚ) := by
      push_cast
      norm_num
    rw [hq, Rat.floor_natCast_div_natCast]
    norm_num
  have h100 : compositeWhite 100 128 = 177 := by
    rw [compositeWhite_eq 100 128 (by norm_num)]
    norm_num
  have h150 : compositeWhite 150 128 = 202 := by
    rw [compositeWhite_eq 150 128 (by norm_num)]
    norm_num
  have h200 : compositeWhite 200 128 = 227 := by
    rw [compositeWhite_eq 200 128 (by norm_num)]
    norm_num
  refine ⟨h1, h2, ?_, by decide⟩
  simp [decode_pixel, rgbaTestImage, h100, h150, h200]

/-- C1 (amended): each RGBA channel is composited over opaque white with
truncation, `out = int(c * a/255 + 255 * (1 - a/255))`, which equals the
exact natural-number quotient `(c*a + 255*(255-a)) / 255`; the spec's
example pixel `(100,150,200,128)` decodes to `(177,202,227)`. -/
theorem rgba_composites_over_white_truncated (c a : ℕ) (ha : a ≤ 255) :
    compositeWhite c a = ((c * a + 255 * (255 - a)) / 255 : ℕ)
    ∧ decode_pixel rgbaTestImage 0 0 = some (177, 202, 227) := by
  refine ⟨compositeWhite_eq c a ha, ?_⟩
  have h100 : compositeWhite 100 128 = 177 := by
    rw [compositeWhite_eq 100 128 (by norm_num)]
    norm_num
  have h150 : compositeWhite 150 128 = 202 := by
    rw [compositeWhite_eq 150 128 (by norm_num)]
    norm_num
  have h200 : compositeWhite 200 128 = 227 := by
    rw [compositeWhite_eq 200 128 (by norm_num)]
    norm_num
  simp [decode_pixel, rgbaTestImage, h100, h150, h200]

/-- C1 witness: the amended theorem applied at the concrete channel and
alpha of the spec's example. -/
theorem rgba_composites_over_white_truncated_witness :
    compositeWhite 100 128 = ((100 * 128 + 255 * (255 - 128)) / 255 : ℕ)
    ∧ decode_pixel rgbaTestImage 0 0 = some (177, 202, 227) :=
  rgba_composites_over_white_truncated 100 128 (by norm_num)

/-- C3: with a `2000×1000` source shown as a `1000×500` display copy at
`zoomFactor 2.0`, the canvas click `(400,200)` maps back to source pixel
`(400,200)`: the zoom is undone first, then the display downscale, then
the result is truncated. -/
theorem compound_scaling_click_maps_exactly :
    map_to_source 2 (some (1000, 500)) 2000 1000 400 200 = (400, 200) := by
  simp only [map_to_source]
  rw [pyInt_eq_intCast _ 400 (by push_cast; norm_num),
    pyInt_eq_intCast _ 200 (by push_cast; norm_num)]

/-- C7: at `zoomFactor 1.0` with no display downscale the coordinate
mapping only truncates each coordinate with `int()`, so it is the
identity on integer pointer coordinates. -/
theorem unit_zoom_mapping_is_identity (ow oh : ℕ) (px py : ℤ) (cx cy : ℚ) :
    map_to_source 1 none ow oh cx cy = (pyInt cx, pyInt cy)
    ∧ map_to_source 1 none ow oh (px : ℚ) (py : ℚ) = (px, py) := by
  constructor
  · simp only [map_to_source, div_one]
  · simp only [map_to_source, div_one, pyInt_intCast]

/-- C5: every achromatic triple `r = g = b = k` converts to hue `0`,
saturation `0`, and value `k/255*100` truncated (natural-number
division); truncation, not rounding, is what the code computes, as the
gray level `130` shows: the exact value `130/255*100 ≈ 50.98` is reported
as `50` while rounding would give `51`. -/
theorem achromatic_hsv_truncates (k : Fin 256) :
    hsv_deg k k k = (0, 0, (((k : ℕ) * 100 / 255 : ℕ) : ℤ))
    ∧ hsv_deg 130 130 130 = (0, 0, 50)
    ∧ round (((130 : ℚ) * 100) / 255) = 51 := by
  refine ⟨hsv_deg_achromatic k, ?_, ?_⟩
  · have h := hsv_deg_achromatic 130
    norm_num at h
    exact h
  · rw [round_eq]
    have hq : ((130 : ℚ) * 100) / 255 + 1 / 2 = ((5251 : ℕ) : ℚ) / ((102 : ℕ) : ℚ) := by
      push_cast
      norm_num
    rw [hq, Rat.floor_natCast_div_natCast]
    norm_num

/-- C4: when the mapped source coordinate fails the bounds check
`0 ≤ x < width ∧ 0 ≤ y < height`, the click handler returns the state
unchanged: nothing is decoded, nothing is appended, no error value is
produced. -/
theorem oob_click_has_no_effect (st : AppState) (img : SourceImage)
    (cx cy : ℚ) (ts : String) (himg : st.image = some img)
    (hoob : ¬ (0 ≤ (map_to_source st.zoom_factor st.displayDims img.width img.height cx cy).1
      ∧ (map_to_source st.zoom_factor st.displayDims img.width img.height cx cy).1 < (img.width : ℤ)
      ∧ 0 ≤ (map_to_source st.zoom_factor st.displayDims img.width img.height cx cy).2
      ∧ (map_to_source st.zoom_factor st.displayDims img.width img.height cx cy).2 < (img.height : ℤ))) :
    on_canvas_click st cx cy ts = st := by
  unfold on_canvas_click
  rw [himg]
  exact if_neg hoob

/-- C4 witness: on the `100×100` test image at unit zoom a click mapping
to `(100, 50)` is rejected and the session state — the ledger included —
is unchanged. -/
theorem oob_click_has_no_effect_witness :
    on_canvas_click testState 100 50 "t" = testState := by
  refine oob_click_has_no_effect testState testImage 100 50 "t" rfl ?_
  have hmap : map_to_source testState.zoom_factor testState.displayDims
      testImage.width testImage.height 100 50 = (100, 50) := by
    simp only [testState, testImage, map_to_source, div_one]
    rw [pyInt_eq_intCast _ 100 (by norm_num), pyInt_eq_intCast _ 50 (by norm_num)]
  rw [hmap]
  norm_num [testImage]

/-- C10: at unit zoom with no display downscale, the canvas click at the
negative fractional coordinate `x = -1/2` is truncated toward zero by
`int()` to source column `0`, passes the bounds check, and appends a
sample at `(0, 0)`: a negative canvas coordinate that is not rejected as
out-of-bounds. -/
theorem negative_fraction_click_is_accepted :
    (-(1 : ℚ)/2) < 0
    ∧ (on_canvas_click testState (-(1 : ℚ)/2) 0 "t").color_records.map
        (fun rec => (rec.x, rec.y, rec.sequence)) = [(0, 0, 1)] := by
  refine ⟨by norm_num, ?_⟩
  have hmap : map_to_source testState.zoom_factor testState.displayDims
      testImage.width testImage.height (-(1 : ℚ)/2) 0 = (0, 0) := by
    simp only [testState, testImage, map_to_source, div_one]
    have hceil : pyInt (-(1 : ℚ)/2) = 0 := by
      unfold pyInt
      rw [if_pos (by norm_num)]
      rw [Int.ceil_eq_zero_iff]
      constructor <;> norm_num
    rw [hceil, pyInt_eq_intCast _ 0 (by norm_num)]
  unfold on_canvas_click
  simp only [show testState.image = some testImage from rfl, hmap]
  norm_num [testImage, testState, decode_pixel, update_color_info, add_color_record]

/-- A character is an uppercase hexadecimal digit (`0`–`9` or `A`–`F`). -/
def isUpperHexDigit (c : Char) : Bool :=
  (48 ≤ c.toNat && c.toNat ≤ 57) || (65 ≤ c.toNat && c.toNat ≤ 70)

/-- The numeric value of an uppercase hexadecimal digit. -/
def hexDigitVal (c : Char) : ℕ :=
  if c.toNat ≤ 57 then c.toNat - 48 else c.toNat - 55

/-- The byte encoded by two uppercase hexadecimal digits. -/
def parseHexByte (c₁ c₂ : Char) : ℕ :=
  hexDigitVal c₁ * 16 + hexDigitVal c₂

theorem hexDigit_isUpper : ∀ n : Fin 16, isUpperHexDigit (hexDigit n) = true := by
  decide

set_option maxRecDepth 4096 in
theorem parseHexByte_format : ∀ n : Fin 256,
    parseHexByte (hexDigit ((n : ℕ) / 16 % 16)) (hexDigit ((n : ℕ) % 16)) = n := by
  decide

/-- C2 counterexample: the recorded hex field carries a leading `#` and
has seven characters, so it is not the bare six-digit concatenation
`format(r,'02X')+format(g,'02X')+format(b,'02X')` the claim states: for
the black pixel the code stores `"#000000"`, not `"000000"`. -/
theorem hex_field_is_not_bare_six_digits :
    (update_color_info [] "a.png" "t" 0 0 0 0 0).map ColorRecord.hex = ["#000000"]
    ∧ specBareHex 0 0 0 = "000000"
    ∧ ("#000000" : String) ≠ "000000" := by
  refine ⟨?_, by decide, by decide⟩
  simp only [update_color_info, add_color_record, List.nil_append, List.map_cons, List.map_nil]
  decide

/-- C2 (amended): every recorded sample's hex field is `'#'` followed by
six uppercase hex digits, equal to
`'#' + format(r,'02X') + format(g,'02X') + format(b,'02X')`; the six
digits decode back to the sample's RGB channels, and appending never
alters the previously stored records. -/
theorem hex_field_hash_plus_six_upper_digits (r g b : Fin 256)
    (recs : List ColorRecord) (file ts : String) (x y : ℤ) :
    ∃ rec d₁ d₂ d₃ d₄ d₅ d₆,
      update_color_info recs file ts x y r g b = recs ++ [rec]
      ∧ rec.hex = "#" ++ specBareHex r g b
      ∧ rec.hex.data = ['#', d₁, d₂, d₃, d₄, d₅, d₆]
      ∧ ([d₁, d₂, d₃, d₄, d₅, d₆].all isUpperHexDigit) = true
      ∧ parseHexByte d₁ d₂ = r ∧ parseHexByte d₃ d₄ = g ∧ parseHexByte d₅ d₆ = b
      ∧ (update_color_info recs file ts x y r g b).take recs.length = recs := by
  refine ⟨_, hexDigit ((r : ℕ) / 16 % 16), hexDigit ((r : ℕ) % 16),
    hexDigit ((g : ℕ) / 16 % 16), hexDigit ((g : ℕ) % 16),
    hexDigit ((b : ℕ) / 16 % 16), hexDigit ((b : ℕ) % 16),
    rfl, ?_, ?_, ?_, ?_, ?_, ?_, ?_⟩
  · show hexColor r g b = "#" ++ specBareHex r g b
    apply String.ext
    simp [hexColor, specBareHex]
  · rfl
  · have h16 : ∀ m : ℕ, m % 16 < 16 := fun m => Nat.mod_lt m (by norm_num)
    simp only [List.all_cons, List.all_nil, Bool.and_true]
    rw [hexDigit_isUpper ⟨(r : ℕ) / 16 % 16, h16 _⟩, hexDigit_isUpper ⟨(r : ℕ) % 16, h16 _⟩,
      hexDigit_isUpper ⟨(g : ℕ) / 16 % 16, h16 _⟩, hexDigit_isUpper ⟨(g : ℕ) % 16, h16 _⟩,
      hexDigit_isUpper ⟨(b : ℕ) / 16 % 16, h16 _⟩, hexDigit_isUpper ⟨(b : ℕ) % 16, h16 _⟩]
    decide
  · exact parseHexByte_format r
  · exact parseHexByte_format g
  · exact parseHexByte_format b
  · show (recs ++ [_]).take recs.length = recs
    exact List.take_left recs _

theorem seq_invariant_nil : seq_invariant [] := fun i => absurd i.isLt (by simp)

theorem seq_invariant_append (recs : List ColorRecord) (rec : ColorRecord)
    (h : seq_invariant recs) (hrec : rec.sequence = recs.length + 1) :
    seq_invariant (recs ++ [rec]) := by
  intro i
  rcases lt_or_ge (i : ℕ) recs.length with hi | hi
  · rw [List.get_eq_getElem, List.getElem_append_left hi]
    have := h ⟨i, hi⟩
    rw [List.get_eq_getElem] at this
    exact this
  · have hlen : (i : ℕ) = recs.length := by
      have hx := i.isLt
      simp only [List.length_append, List.length_cons, List.length_nil] at hx
      omega
    rw [List.get_eq_getElem, List.getElem_concat_length recs rec _ hlen]
    rw [hrec, hlen]

/-- Every ledger reachable through the application's operations satisfies
the 1-based position–sequence invariant. -/
theorem reachable_seq_invariant (recs : List ColorRecord)
    (h : ReachableLedger recs) : seq_invariant recs := by
  induction h with
  | empty => exact seq_invariant_nil
  | click recs file ts x y r g b _ ih =>
      exact seq_invariant_append recs _ ih rfl
  | capture recs ts x y r g b _ ih =>
      exact seq_invariant_append recs _ ih rfl
  | cleared recs confirm _ ih =>
      unfold clear_records
      split
      · exact ih
      · split
        · exact seq_invariant_nil
        · exact ih

/-- C6: every append stores `sequence = count + 1`, so three appends from
an empty ledger carry sequences `1, 2, 3`; a confirmed clear of a
non-empty ledger followed by one append yields sequence `1`; and every
reachable ledger state has the record at 1-based position `i` carrying
`sequence = i`. -/
theorem ledger_sequence_numbering :
    (∀ recs, ReachableLedger recs → seq_invariant recs)
    ∧ (∀ f1 t1 f2 t2 f3 t3 : String, ∀ x y : ℤ, ∀ r g b : ℕ,
        (update_color_info (update_color_info (update_color_info []
            f1 t1 x y r g b) f2 t2 x y r g b) f3 t3 x y r g b).map
          ColorRecord.sequence = [1, 2, 3])
    ∧ (∀ recs, recs ≠ [] → ∀ f t : String, ∀ x y : ℤ, ∀ r g b : ℕ,
        (update_color_info (clear_records recs true) f t x y r g b).map
          ColorRecord.sequence = [1]) := by
  refine ⟨reachable_seq_invariant, ?_, ?_⟩
  · intro f1 t1 f2 t2 f3 t3 x y r g b
    simp [update_color_info, add_color_record]
  · intro recs hne f t x y r g b
    have hclear : clear_records recs true = [] := by
      unfold clear_records
      rw [if_neg (by simpa [List.isEmpty_iff] using hne)]
      rw [if_pos rfl]
    rw [hclear]
    simp [update_color_info, add_color_record]

/-- C6 witness: the invariant evaluated on a concretely reachable
one-record ledger, and clear-then-append on that ledger yielding
sequence `1`. -/
theorem ledger_sequence_numbering_witness :
    seq_invariant (update_color_info [] "a.png" "t" 0 0 1 2 3)
    ∧ (update_color_info (clear_records (update_color_info [] "a.png" "t" 0 0 1 2 3) true)
        "b.png" "u" 1 1 4 5 6).map ColorRecord.sequence = [1] :=
  ⟨ledger_sequence_numbering.1 _
      (ReachableLedger.click [] "a.png" "t" 0 0 1 2 3 ReachableLedger.empty),
    ledger_sequence_numbering.2.2 _ (by simp [update_color_info, add_color_record])
      "b.png" "u" 1 1 4 5 6⟩

/-- C8: a screen-capture timer tick only publishes the live RGB triple —
the ledger is bit-for-bit unchanged — while the explicit manual-capture
action on an in-bounds pointer appends exactly one record whose
`image_file` is the fixed marker `"Screen Capture"`. -/
theorem capture_tick_never_appends :
    (∀ (st : FloatState) (ptrX ptrY : ℤ) (shot : Screenshot),
        (start_screen_capture st ptrX ptrY shot).color_records = st.color_records)
    ∧ (∀ (st : FloatState) (ptrX ptrY : ℤ) (shot : Screenshot) (ts : String)
          (r g b : ℕ) (rest : List ℕ),
        (0 ≤ ptrX ∧ ptrX < (shot.width : ℤ) ∧ 0 ≤ ptrY ∧ ptrY < (shot.height : ℤ)) →
        shot.getpixel ptrX ptrY = r :: g :: b :: rest →
        (manual_capture_color st ptrX ptrY shot ts).color_records
          = st.color_records ++ [screen_capture_record st.color_records ts ptrX ptrY r g b]
        ∧ (screen_capture_record st.color_records ts ptrX ptrY r g b).image_file
          = "Screen Capture") := by
  constructor
  · intro st ptrX ptrY shot
    unfold start_screen_capture
    split
    · split
      · split <;> rfl
      · rfl
    · rfl
  · intro st ptrX ptrY shot ts r g b rest hb hpix
    unfold manual_capture_color
    rw [if_pos hb, hpix]
    exact ⟨rfl, rfl⟩

/-- C8 witness: one concrete manual capture on the test snapshot appends
exactly the `"Screen Capture"` record. -/
theorem capture_tick_never_appends_witness :
    (manual_capture_color testFloat 10 10 testShot "t").color_records
      = testFloat.color_records
        ++ [screen_capture_record testFloat.color_records "t" 10 10 10 20 30]
    ∧ (screen_capture_record testFloat.color_records "t" 10 10 10 20 30).image_file
      = "Screen Capture" :=
  capture_tick_never_appends.2 testFloat 10 10 testShot "t" 10 20 30 []
    (by norm_num [testShot]) rfl

theorem txt_blocks_of_seq (recs : List ColorRecord) : ∀ start : ℕ,
    (∀ i : Fin recs.length, (recs.get i).sequence = start + (i : ℕ)) →
    txt_blocks start recs = recs.map (fun rec => txt_block rec.sequence rec) := by
  induction recs with
  | nil => intro start _; rfl
  | cons rec rest ih =>
      intro start h
      have h0 := h ⟨0, by simp⟩
      simp only [List.get_eq_getElem, List.getElem_cons_zero, Nat.add_zero] at h0
      unfold txt_blocks
      rw [List.map_cons, h0]
      congr 1
      refine ih (start + 1) fun i => ?_
      have hs := h ⟨(i : ℕ) + 1, by simp [Nat.add_lt_add_iff_right, i.isLt]⟩
      simp only [List.get_eq_getElem, List.getElem_cons_succ] at hs
      rw [List.get_eq_getElem]
      omega

/-- C9: the four export renderers agree value-for-value on any ledger
satisfying the sequence invariant: JSON embeds the records unchanged, CSV
emits exactly the record's twelve values per row, the XML element of each
record carries the same twelve values in string form, and each TXT block
is determined by its own record's fields (its `记录 #n` number equals the
record's `sequence`). -/
theorem export_renderers_agree (recs : List ColorRecord) (now : String)
    (hinv : seq_invariant recs) :
    (export_to_json recs now).color_records = recs
    ∧ export_to_csv recs = csv_headers :: recs.map csv_row
    ∧ (export_to_xml recs).map xml_values = recs.map csv_row
    ∧ export_to_txt recs = recs.map (fun rec => txt_block rec.sequence rec) := by
  refine ⟨rfl, rfl, ?_, ?_⟩
  · rw [export_to_xml, List.map_map]
    rfl
  · exact txt_blocks_of_seq recs 1 fun i => by rw [hinv i]; omega

/-- Test fixture: one fully explicit color record with `sequence = 1`. -/
def witnessRecord : ColorRecord :=
  ⟨"t", 1, 0, 0, 1, 2, 3, 0, 0, 0, "#010203", "a.png"⟩

/-- C9 witness: the renderer agreement evaluated on a concrete
single-record ledger. -/
theorem export_renderers_agree_witness :
    (export_to_json [witnessRecord] "now").color_records = [witnessRecord]
    ∧ export_to_csv [witnessRecord] = csv_headers :: [witnessRecord].map csv_row
    ∧ (export_to_xml [witnessRecord]).map xml_values = [witnessRecord].map csv_row
    ∧ export_to_txt [witnessRecord]
      = [witnessRecord].map (fun rec => txt_block rec.sequence rec) :=
  export_renderers_agree [witnessRecord] "now" (by
    intro i
    fin_cases i
    rfl)

end ColorPicker
